import Mathlib

/-!
Shallow embedding of the audrey audio-reading crate (`src/lib.rs`,
`src/read.rs`, `src/caf_alac.rs`).

The crate's own logic — format detection, stream description, sample/frame
iteration, decode-path selection, error classification — is translated
faithfully from the source.  The external decoder collaborators (hound,
claxon, lewton, caf, alac, and the `sample` conversion crate re-exported by
`lib.rs`) are abstracted exactly at the boundary the source code observes:
their constructor / pull outcomes become inputs of the embedded functions,
and their error enums are modelled with exactly the constructors the
source's `match` arms distinguish (all other constructors are collapsed
into a numbered `other` payload, which the source treats uniformly).
-/

namespace Audrey

/-- `Format` from `src/lib.rs` (all features enabled): the closed set of
supported container/codec kinds. -/
inductive Format where
  | flac
  | oggVorbis
  | wav
  | cafAlac
  deriving DecidableEq, Repr

namespace Format

/-- `Format::from_extension` from `src/lib.rs`: the Rust `match` on the
extension string, transcribed as an equality chain with the same arms in
the same order (`"ogg" | "oga"` and `"wav" | "wave"` are or-patterns in
the source). -/
def from_extension (ext : String) : Option Format :=
  if ext = "flac" then some .flac
  else if ext = "ogg" then some .oggVorbis
  else if ext = "oga" then some .oggVorbis
  else if ext = "wav" then some .wav
  else if ext = "wave" then some .wav
  else if ext = "caf" then some .cafAlac
  else none

/-- `Format::extension` from `src/lib.rs`: the most common extension for
each format. -/
def extension : Format → String
  | .flac => "flac"
  | .wav => "wav"
  | .oggVorbis => "ogg"
  | .cafAlac => "caf"

/-- The extension strings that `Format::from_extension` recognises. -/
def supportedExtensions : List String :=
  ["flac", "ogg", "oga", "wav", "wave", "caf"]

end Format

/-- `hound::SampleFormat`: whether a WAV file stores integer or float
samples. -/
inductive SampleFormat where
  | int
  | float
  deriving DecidableEq, Repr

/-- The `WavSamples` enum from `src/read.rs` (lines 88–95): which of
hound's sample bit-depth decode paths the `Samples` iterator committed
to. -/
inductive WavSamplesPath where
  | i8
  | i16
  | i24
  | i32
  | f32
  deriving DecidableEq, Repr

/-- The WAV arm of `Reader::samples` (`src/read.rs` lines 343–358):
selection of the decode path from the wav spec's sample format and
declared bits per sample.  The Rust `match spec.bits_per_sample` is an
equality chain; the wildcard arm `_ => ... I32 ...` (line 352) is kept as
the final else, and the redundant `32 => I32` arm is kept distinct from it
to mirror the source. -/
def wavSamplesPath (sample_format : SampleFormat) (bits_per_sample : ℕ) :
    WavSamplesPath :=
  match sample_format with
  | .int =>
      if bits_per_sample = 8 then .i8
      else if bits_per_sample = 16 then .i16
      else if bits_per_sample = 24 then .i24
      else if bits_per_sample = 32 then .i32
      else .i32
  | .float => .f32

/-!
### Numeric sample conversion (the `sample` collaborator crate)

`Samples::next` converts each decoded value with
`sample::Sample::to_sample`.  The conversion functions live in the
`sample` crate that `src/lib.rs` re-exports (`pub extern crate sample`);
they are full-range rescalings between the fixed-width representations:
integer widening multiplies by a power of two (left shift), integer
narrowing divides by a power of two rounding toward negative infinity
(arithmetic right shift).  We embed the integer conversions the crate's
own code paths exercise, on `ℤ` with the shifts made explicit.
-/

/-- `sample` crate conversion, 8-bit to 16-bit integer: `(s as i16) << 8`. -/
def i16_from_i8 (s : ℤ) : ℤ := s * 2 ^ 8

/-- `sample` crate conversion, 16-bit to 32-bit integer: `(s as i32) << 16`. -/
def i32_from_i16 (s : ℤ) : ℤ := s * 2 ^ 16

/-- `sample` crate conversion, 24-bit (`I24`) to 32-bit integer:
`(s.inner() as i32) << 8`. -/
def i32_from_i24 (s : ℤ) : ℤ := s * 2 ^ 8

/-- `sample` crate conversion, 32-bit to 16-bit integer:
`(s >> 16) as i16` — an arithmetic right shift, i.e. floor division. -/
def i16_from_i32 (s : ℤ) : ℤ := s / 2 ^ 16

/-!
### Error model (`src/read.rs` lines 119–140)

The collaborator error enums are modelled with exactly the constructors
that `Reader::new` (lines 201–265) pattern-matches on; every other
constructor of the real enum is collapsed into `other` with a `ℕ`
payload, since the source handles all of them through the same wildcard
arm.
-/

/-- `hound::Error`: `Reader::new` distinguishes only
`hound::Error::FormatError(_)` (format-signature mismatch) from every
other variant (`IoError`, `TooWide`, …, collapsed into `other`). -/
inductive HoundError where
  | formatError (m : ℕ)
  | other (m : ℕ)
  deriving DecidableEq, Repr

/-- `claxon::Error`: `Reader::new` distinguishes only
`claxon::Error::FormatError(_)` from every other variant. -/
inductive ClaxonError where
  | formatError (m : ℕ)
  | other (m : ℕ)
  deriving DecidableEq, Repr

/-- `lewton::header::HeaderReadError`: `Reader::new` distinguishes only
`NotVorbisHeader`. -/
inductive HeaderReadError where
  | notVorbisHeader
  | other (m : ℕ)
  deriving DecidableEq, Repr

/-- `lewton::VorbisError`: `Reader::new` distinguishes
`OggError(_)` and `BadHeader(NotVorbisHeader)` from every other variant. -/
inductive VorbisError where
  | badHeader (e : HeaderReadError)
  | oggError (m : ℕ)
  | other (m : ℕ)
  deriving DecidableEq, Repr

/-- `caf::CafError`: `AlacReader::new`'s callers distinguish only
`CafError::NotCaf`. -/
inductive CafError where
  | notCaf
  | other (m : ℕ)
  deriving DecidableEq, Repr

/-- `FormatError` from `src/read.rs`: format-specific errors (all
features enabled).  The `Alac` variant carries `()` in the source. -/
inductive FormatError where
  | flac (e : ClaxonError)
  | oggVorbis (e : VorbisError)
  | wav (e : HoundError)
  | caf (e : CafError)
  | alac
  deriving DecidableEq, Repr

/-- `ReadError` from `src/read.rs`: errors from `Reader::new`.  `io`
carries a `ℕ` stand-in for `std::io::Error`. -/
inductive ReadError where
  | io (e : ℕ)
  | reader (e : FormatError)
  | unsupportedFormat
  deriving DecidableEq, Repr

/-!
### Decoder metadata and the `Reader` tagged union

Each decoder collaborator exposes declared channel-count / sample-rate
metadata that `Reader::description` (lines 282–321) copies out.  We model
each collaborator's metadata with the fields `description` reads.  The
CAF audio description's `sample_rate` is an `f64` in Hz; it is modelled
as a rational, and the Rust `as u32` cast of a non-negative in-range
value truncates toward zero, i.e. takes the floor.
-/

/-- `claxon::metadata::StreamInfo`, as read by `Reader::description`:
`channels` (u32) and `sample_rate` (u32). -/
structure FlacStreamInfo where
  channels : ℕ
  sample_rate : ℕ
  deriving DecidableEq, Repr

/-- `lewton`'s `ident_hdr`, as read by `Reader::description`:
`audio_channels` (u8) and `audio_sample_rate` (u32). -/
structure OggIdentHdr where
  audio_channels : ℕ
  audio_sample_rate : ℕ
  deriving DecidableEq, Repr

/-- `hound::WavSpec`, as read by `Reader::description` and
`Reader::samples`: `channels` (u16), `sample_rate` (u32),
`sample_format` and `bits_per_sample` (u16). -/
structure WavSpec where
  channels : ℕ
  sample_rate : ℕ
  sample_format : SampleFormat
  bits_per_sample : ℕ
  deriving DecidableEq, Repr

/-- `caf::FormatType`: `AlacReader::new` distinguishes only
`AppleLossless`. -/
inductive FormatType where
  | appleLossless
  | other (k : ℕ)
  deriving DecidableEq, Repr

/-- The CAF `audio_desc` fields read by `src/caf_alac.rs` and
`Reader::description`: `sample_rate` (f64, in Hz, modelled as `ℚ`),
`format_id`, `channels_per_frame` (u32) and `frames_per_packet` (u32). -/
structure CafAudioDesc where
  sample_rate : ℚ
  format_id : FormatType
  channels_per_frame : ℕ
  frames_per_packet : ℕ
  deriving DecidableEq, Repr

/-- The `Reader` enum from `src/read.rs` (lines 36–48): a closed tagged
union, one live decoder adapter.  Each variant carries the collaborator
metadata that `description` and `samples` read (the decoders' remaining
internal state plays no role in the embedded operations). -/
inductive Reader where
  | flac (info : FlacStreamInfo)
  | oggVorbis (hdr : OggIdentHdr)
  | wav (spec : WavSpec)
  | cafAlac (desc : CafAudioDesc)
  deriving DecidableEq, Repr

/-- `Description` from `src/read.rs` (lines 112–117). -/
structure Description where
  format : Format
  channel_count : ℕ
  sample_rate : ℕ
  deriving DecidableEq, Repr

/-- The Rust expression `q as u32` for a rational `q` known to be
non-negative and below `2^32`: truncation toward zero, i.e. the floor. -/
def ratAsU32 (q : ℚ) : ℕ := (⌊q⌋).toNat

namespace Reader

/-- `Reader::format` from `src/read.rs` (lines 268–279). -/
def format : Reader → Format
  | .flac _ => .flac
  | .oggVorbis _ => .oggVorbis
  | .wav _ => .wav
  | .cafAlac _ => .cafAlac

/-- `Reader::description` from `src/read.rs` (lines 282–321), arm by arm.
The CAF/ALAC arm computes `sample_rate: (1.0 / desc.sample_rate) as u32`
exactly as the source does (line 317). -/
def description : Reader → Description
  | .flac info =>
      { format := .flac
        channel_count := info.channels
        sample_rate := info.sample_rate }
  | .oggVorbis hdr =>
      { format := .oggVorbis
        channel_count := hdr.audio_channels
        sample_rate := hdr.audio_sample_rate }
  | .wav spec =>
      { format := .wav
        channel_count := spec.channels
        sample_rate := spec.sample_rate }
  | .cafAlac desc =>
      { format := .cafAlac
        channel_count := desc.channels_per_frame
        sample_rate := ratAsU32 (1 / desc.sample_rate) }

end Reader

/-!
### The `Samples` iterator (`src/read.rs` lines 393–483)

The underlying decoder's sample pulls are modelled as a list of
`Except`-results: the list's elements are the successive `Some(..)`
returns of the inner iterator, and the end of the list is its terminal
`None`.  The FLAC arm of `Samples::next` maps each pull through
`map_err(FormatError::Flac)` and `sample::Sample::to_sample` with the
caller's conversion `conv`.
-/

/-- The FLAC arm of `Samples::next` (`src/read.rs` lines 402–406):
`flac_samples.next().map(|s| s.map_err(FormatError::Flac).map(to_sample))`.
`conv` is the `to_sample` conversion to the caller's requested type. -/
def samplesNextFlac (conv : ℤ → ℤ) :
    List (Except ClaxonError ℤ) → Option (Except FormatError ℤ)
  | [] => none
  | .ok s :: _ => some (.ok (conv s))
  | .error e :: _ => some (.error (.flac e))

/-!
### The `Frames` iterator (`src/read.rs` lines 485–518)

`Frames::next` builds one frame of arity `K` with `F::from_fn`, which
calls the closure once per channel, in order, with no short-circuiting.
The closure pulls `self.samples.next()` each time and records into the
mutable `result`:
  * `Some(Ok(sample))`  — keep `result` unchanged, use the sample;
  * `Some(Err(error))`  — overwrite `result` with `Err(error)`, use the
    equilibrium value;
  * `None`              — overwrite `result` with `NotEnoughSamples`,
    use the equilibrium value.
We thread the pull list, the accumulated `result` flag and the frame
being built explicitly.
-/

variable {α ε : Type}

/-- The `FrameConstruction` enum local to `Frames::next`. -/
inductive FrameConstruction (ε : Type) where
  | notEnoughSamples
  | ok
  | err (e : ε)
  deriving DecidableEq, Repr

/-- The `F::from_fn` loop of `Frames::next`: perform `k` sample pulls
against the pull list, returning the frame slots produced, the final
`result` flag and the remaining pulls.  `equil` is
`Sample::equilibrium()`. -/
def framesFill (equil : α) :
    ℕ → List (Except ε α) → FrameConstruction ε →
    List α × FrameConstruction ε × List (Except ε α)
  | 0, pulls, r => ([], r, pulls)
  | k + 1, [], _ =>
      let p := framesFill equil k [] .notEnoughSamples
      (equil :: p.1, p.2.1, p.2.2)
  | k + 1, .ok s :: t, r =>
      let p := framesFill equil k t r
      (s :: p.1, p.2.1, p.2.2)
  | k + 1, .error e :: t, _ =>
      let p := framesFill equil k t (.err e)
      (equil :: p.1, p.2.1, p.2.2)

/-- `Frames::next` (`src/read.rs` lines 492–517): build one frame of
arity `k` and dispatch on the final `result` flag.  Returns the
iterator's yielded item and the remaining pulls. -/
def framesNext (equil : α) (k : ℕ) (pulls : List (Except ε α)) :
    Option (Except ε (List α)) × List (Except ε α) :=
  match framesFill equil k pulls .ok with
  | (frame, .ok, rest) => (some (.ok frame), rest)
  | (_, .err e, rest) => (some (.error e), rest)
  | (_, .notEnoughSamples, rest) => (none, rest)

/-- Driving the `Frames` iterator to completion: repeatedly call
`framesNext` and collect the yielded items until it returns `None`.
`fuel` bounds the number of calls (the iterator itself is driven by the
caller; any fuel at least `pulls.length / k + 1` is enough when
`0 < k`). -/
def framesRun (equil : α) (k : ℕ) : ℕ → List (Except ε α) → List (Except ε (List α))
  | 0, _ => []
  | fuel + 1, pulls =>
      match framesNext equil k pulls with
      | (none, _) => []
      | (some r, rest) => r :: framesRun equil k fuel rest

/-- One step of scanning pulls for their last decode error: a failing
pull overwrites the record, a successful one keeps it — the same update
discipline `Frames::next` applies to its `result` flag. -/
def pullStep (acc : Option ε) : Except ε α → Option ε
  | .error e => some e
  | .ok _ => acc

/-- The last decode error among a list of pulls, if any: the value the
`result` flag would hold after processing the pulls in order, ignoring
end-of-stream.  (`Frames::next` overwrites `result` on every failing
pull, so the last one wins.) -/
def lastPullError : List (Except ε α) → Option ε :=
  List.foldl pullStep none

/-!
### `AlacReader::new` (`src/caf_alac.rs` lines 24–43)

The `caf` collaborator's `CafPacketReader::new(rdr, vec![MagicCookie])`
parses the container and retains the chunks matching the filter; its
outcome (error, or parsed state) is an input of the embedding.  The
`alac` collaborator's `Decoder::from_cookie` is likewise an input.  The
`.unwrap()` on the magic-cookie lookup (line 37) is modelled by an
explicit `panic` outcome.
-/

/-- `caf::chunks::CafChunk`: the lookup in `AlacReader::new`
distinguishes only `MagicCookie(d)`. -/
inductive CafChunk where
  | magicCookie (d : List ℕ)
  | other (k : ℕ)
  deriving DecidableEq, Repr

/-- The fields of `caf::CafPacketReader` read by `src/caf_alac.rs`:
`audio_desc` and the retained `chunks`. -/
structure CafPacketReaderState where
  audio_desc : CafAudioDesc
  chunks : List CafChunk
  deriving DecidableEq, Repr

/-- The magic-cookie lookup in `AlacReader::new` (lines 29–36):
`chunks.iter().filter_map(MagicCookie => data).next()`. -/
def findMagicCookie (chunks : List CafChunk) : Option (List ℕ) :=
  (chunks.filterMap fun c =>
    match c with
    | .magicCookie d => some d
    | .other _ => none).head?

/-- Outcome of a Rust function that can also panic. -/
inductive RustOutcome (α : Type) where
  | ok (a : α)
  | err (e : FormatError)
  | panic
  deriving DecidableEq, Repr

/-- `AlacReader::new` (`src/caf_alac.rs` lines 24–43).  `cafNew` is the
outcome of `CafPacketReader::new` (its `CafError` is converted by
`try!` through `From` into `FormatError::Caf`); `fromCookie` is the
outcome of `alac::Decoder::from_cookie` on the found cookie, whose error
is mapped to `FormatError::Alac(())`.  The `.unwrap()` on the cookie
lookup becomes `panic` when the lookup finds nothing. -/
def alacReaderNew (cafNew : Except CafError CafPacketReaderState)
    (fromCookie : List ℕ → Except Unit Unit) :
    RustOutcome (Option CafPacketReaderState) :=
  match cafNew with
  | .error e => .err (.caf e)
  | .ok caf_reader =>
      if caf_reader.audio_desc.format_id ≠ .appleLossless then .ok none
      else
        match findMagicCookie caf_reader.chunks with
        | none => .panic
        | some cookie =>
            match fromCookie cookie with
            | .error _ => .err .alac
            | .ok _ => .ok (some caf_reader)

/-!
### `Reader::new` (`src/read.rs` lines 201–265)

The stream is abstracted by the outcome each collaborator constructor
produces on its bytes.  Before every attempt the stream has been rewound
to offset 0, so a constructor sees the same bytes each time it runs and
its outcome is a fixed property of the stream; in particular the second
construction on the success path (e.g. line 211) returns the same
successful outcome as the probe.  `seek i` is the outcome of the `i`-th
executed `reader.seek(SeekFrom::Start(0))?` call (`none` = success,
`some e` = an I/O error `e`, which `?` converts to `ReadError::Io`).

`readerNewT` additionally records the list of candidate adapters whose
construction was attempted, in order, so that "no later candidate is
probed" is expressible; `readerNew` is its first component.
-/

/-- Does a `hound::Error` match the arm
`Err(hound::Error::FormatError(_)) => false` (line 205)? -/
def houndIsFormatMismatch : HoundError → Bool
  | .formatError _ => true
  | .other _ => false

/-- Does a `claxon::Error` match the arm
`Err(claxon::Error::FormatError(_)) => false` (line 218)? -/
def claxonIsFormatMismatch : ClaxonError → Bool
  | .formatError _ => true
  | .other _ => false

/-- Does a `lewton::VorbisError` match the arms
`Err(OggError(_)) | Err(BadHeader(NotVorbisHeader)) => false`
(lines 231–234)? -/
def vorbisIsFormatMismatch : VorbisError → Bool
  | .oggError _ => true
  | .badHeader .notVorbisHeader => true
  | .badHeader (.other _) => false
  | .other _ => false

/-- Does a `FormatError` match the arm
`Err(FormatError::Caf(CafError::NotCaf)) => false` (line 249)? -/
def cafIsNotCaf : FormatError → Bool
  | .caf .notCaf => true
  | _ => false

/-- The abstracted seekable byte stream handed to `Reader::new`: the
outcome of each collaborator constructor on its bytes, and the outcome
of each successive rewind. -/
structure Stream where
  wavNew : Except HoundError WavSpec
  flacNew : Except ClaxonError FlacStreamInfo
  oggNew : Except VorbisError OggIdentHdr
  cafNew : Except FormatError (Option CafAudioDesc)
  seek : ℕ → Option ℕ

/-- The CAF/ALAC stage of `Reader::new` (lines 246–262) followed by the
final `Err(ReadError::UnsupportedFormat)` (line 264); reached after the
first three candidates reported a mismatch.  `Ok(None)` is the source's
"There is a CAF container, but no ALAC inside" case, treated as no
match. -/
def readerNewCafStage (s : Stream) : Except ReadError Reader × List Format :=
  match s.cafNew with
  | .error e =>
      if cafIsNotCaf e then
        match s.seek 3 with
        | some io => (.error (.io io), [.wav, .flac, .oggVorbis, .cafAlac])
        | none => (.error .unsupportedFormat, [.wav, .flac, .oggVorbis, .cafAlac])
      else (.error (.reader e), [.wav, .flac, .oggVorbis, .cafAlac])
  | .ok none =>
      match s.seek 3 with
      | some io => (.error (.io io), [.wav, .flac, .oggVorbis, .cafAlac])
      | none => (.error .unsupportedFormat, [.wav, .flac, .oggVorbis, .cafAlac])
  | .ok (some desc) =>
      match s.seek 3 with
      | some io => (.error (.io io), [.wav, .flac, .oggVorbis, .cafAlac])
      | none => (.ok (.cafAlac desc), [.wav, .flac, .oggVorbis, .cafAlac])

/-- The Ogg Vorbis stage of `Reader::new` (lines 228–244); reached after
WAV and FLAC reported a mismatch. -/
def readerNewOggStage (s : Stream) : Except ReadError Reader × List Format :=
  match s.oggNew with
  | .error e =>
      if vorbisIsFormatMismatch e then
        match s.seek 2 with
        | some io => (.error (.io io), [.wav, .flac, .oggVorbis])
        | none => readerNewCafStage s
      else (.error (.reader (.oggVorbis e)), [.wav, .flac, .oggVorbis])
  | .ok hdr =>
      match s.seek 2 with
      | some io => (.error (.io io), [.wav, .flac, .oggVorbis])
      | none => (.ok (.oggVorbis hdr), [.wav, .flac, .oggVorbis])

/-- The FLAC stage of `Reader::new` (lines 215–226); reached after WAV
reported a mismatch. -/
def readerNewFlacStage (s : Stream) : Except ReadError Reader × List Format :=
  match s.flacNew with
  | .error e =>
      if claxonIsFormatMismatch e then
        match s.seek 1 with
        | some io => (.error (.io io), [.wav, .flac])
        | none => readerNewOggStage s
      else (.error (.reader (.flac e)), [.wav, .flac])
  | .ok info =>
      match s.seek 1 with
      | some io => (.error (.io io), [.wav, .flac])
      | none => (.ok (.flac info), [.wav, .flac])

/-- `Reader::new` (lines 201–265) with its probe trace: the WAV stage
(lines 202–213) first, then the FLAC, Ogg Vorbis and CAF/ALAC stages in
the source's order.  The second component lists the candidate adapters
whose construction was attempted, in order. -/
def readerNewT (s : Stream) : Except ReadError Reader × List Format :=
  match s.wavNew with
  | .error e =>
      if houndIsFormatMismatch e then
        match s.seek 0 with
        | some io => (.error (.io io), [.wav])
        | none => readerNewFlacStage s
      else (.error (.reader (.wav e)), [.wav])
  | .ok spec =>
      match s.seek 0 with
      | some io => (.error (.io io), [.wav])
      | none => (.ok (.wav spec), [.wav])

/-- `Reader::new`: the returned value alone. -/
def readerNew (s : Stream) : Except ReadError Reader := (readerNewT s).1

/-- All four candidate adapters were attempted and each reported a
format-signature mismatch ("no match" for the CAF/ALAC adapter also
covers the source's `Ok(None)`: a CAF container without ALAC inside),
with every rewind succeeding. -/
def allCandidatesMismatch (s : Stream) : Prop :=
  (∃ e, s.wavNew = .error e ∧ houndIsFormatMismatch e = true) ∧
  (∃ e, s.flacNew = .error e ∧ claxonIsFormatMismatch e = true) ∧
  (∃ e, s.oggNew = .error e ∧ vorbisIsFormatMismatch e = true) ∧
  ((∃ e, s.cafNew = .error e ∧ cafIsNotCaf e = true) ∨ s.cafNew = .ok none) ∧
  (∀ i, i < 4 → s.seek i = none)

/-- The WAV stage reported a format mismatch and the rewind after it
succeeded, so `Reader::new` proceeded to the FLAC stage. -/
def wavFellThrough (s : Stream) : Prop :=
  (∃ e, s.wavNew = .error e ∧ houndIsFormatMismatch e = true) ∧
  s.seek 0 = none

/-- The FLAC stage reported a format mismatch and the rewind after it
succeeded, so `Reader::new` proceeded to the Ogg Vorbis stage. -/
def flacFellThrough (s : Stream) : Prop :=
  (∃ e, s.flacNew = .error e ∧ claxonIsFormatMismatch e = true) ∧
  s.seek 1 = none

/-- The Ogg Vorbis stage reported a format mismatch and the rewind after
it succeeded, so `Reader::new` proceeded to the CAF/ALAC stage. -/
def oggFellThrough (s : Stream) : Prop :=
  (∃ e, s.oggNew = .error e ∧ vorbisIsFormatMismatch e = true) ∧
  s.seek 2 = none

/-!
## Theorems settling the claims
-/

/-- Once the pull list is exhausted, every further pull of the frame
loop records `NotEnoughSamples`. -/
lemma framesFill_nil_flag (equil : α) (k : ℕ) :
    (framesFill (ε := ε) equil k [] .notEnoughSamples).2.1 =
      .notEnoughSamples := by
  induction k with
  | zero => rfl
  | succ k ih => simpa [framesFill] using ih

/-- On an all-successful pull list with at least `k` pulls available, the
frame loop takes the first `k` samples, leaves the `result` flag
untouched and leaves the rest of the pulls. -/
lemma framesFill_ok_of_le (equil : α) (r : FrameConstruction ε)
    (samples : List α) (k : ℕ) (h : k ≤ samples.length) :
    framesFill equil k (samples.map .ok) r =
      (samples.take k, r, (samples.drop k).map .ok) := by
  induction k generalizing samples with
  | zero => simp [framesFill]
  | succ k ih =>
      cases samples with
      | nil => simp at h
      | cons a t =>
          have ht : k ≤ t.length := by simpa using h
          simp [framesFill, ih t ht]

/-- On an all-successful pull list shorter than the frame arity, the
frame loop ends with the `NotEnoughSamples` flag. -/
lemma framesFill_flag_of_lt (equil : α) (r : FrameConstruction ε)
    (samples : List α) (k : ℕ) (h : samples.length < k) :
    (framesFill equil k (samples.map .ok) r).2.1 = .notEnoughSamples := by
  induction k generalizing samples r with
  | zero => omega
  | succ k ih =>
      cases samples with
      | nil => simpa [framesFill] using framesFill_nil_flag equil k
      | cons a t =>
          have ht : t.length < k := by simpa using h
          simpa [framesFill] using ih r t ht

/-- `Frames::next` on an all-successful pull list with at least `k`
pulls: yields the frame of the first `k` samples and consumes them. -/
lemma framesNext_ok_of_le (equil : α) (samples : List α) (k : ℕ)
    (h : k ≤ samples.length) :
    framesNext (ε := ε) equil k (samples.map .ok) =
      (some (.ok (samples.take k)), (samples.drop k).map .ok) := by
  simp [framesNext, framesFill_ok_of_le equil .ok samples k h]

/-- `Frames::next` on an all-successful pull list shorter than `k`:
yields nothing (the partial frame is dropped without an error). -/
lemma framesNext_none_of_lt (equil : α) (samples : List α) (k : ℕ)
    (h : samples.length < k) :
    (framesNext (ε := ε) equil k (samples.map .ok)).1 = none := by
  rcases hf : framesFill (ε := ε) equil k (samples.map .ok) .ok
    with ⟨frame, flag, rest⟩
  have hflag : flag = .notEnoughSamples := by
    have h2 := framesFill_flag_of_lt (ε := ε) equil .ok samples k h
    rw [hf] at h2
    exact h2
  simp [framesNext, hf, hflag]

/-- C2: for an underlying sample sequence that yields `L` samples with
no errors and a frame arity `0 < k`, the `Frames` iterator emits exactly
`L / k` frames — each a successful frame of exactly `k` samples, so the
trailing `L % k` samples are dropped without a partial frame and without
an error — and then terminates (any driving fuel past the bound yields
no further item). -/
theorem c2_frames_floor_div (equil : α) (k fuel : ℕ) (samples : List α)
    (hk : 0 < k) (hfuel : samples.length / k + 1 ≤ fuel) :
    (framesRun (ε := ε) equil k fuel (samples.map .ok)).length =
      samples.length / k ∧
    ∀ r ∈ framesRun (ε := ε) equil k fuel (samples.map .ok),
      ∃ f, r = .ok f ∧ f.length = k := by
  induction fuel generalizing samples with
  | zero => exact (Nat.not_succ_le_zero _ hfuel).elim
  | succ fuel ih =>
      by_cases hlen : samples.length < k
      · have h0 : samples.length / k = 0 := Nat.div_eq_of_lt hlen
        rcases hn : framesNext (ε := ε) equil k (samples.map .ok)
          with ⟨o, rest⟩
        have ho : o = none := by
          have h2 := framesNext_none_of_lt (ε := ε) equil samples k hlen
          rw [hn] at h2
          exact h2
        subst ho
        simp [framesRun, hn, h0]
      · push_neg at hlen
        have hnext := framesNext_ok_of_le (ε := ε) equil samples k hlen
        have hdrop : (samples.drop k).length = samples.length - k := by
          simp
        have hdiv : samples.length / k = (samples.length - k) / k + 1 :=
          Nat.div_eq_sub_div hk hlen
        have hfuel' : (samples.drop k).length / k + 1 ≤ fuel := by
          rw [hdrop]
          omega
        obtain ⟨ihlen, ihmem⟩ := ih (samples.drop k) hfuel'
        constructor
        · simp only [framesRun, hnext]
          rw [List.length_cons, ihlen, hdrop]
          omega
        · intro r hr
          simp only [framesRun, hnext, List.mem_cons] at hr
          rcases hr with hr | hr
          · exact ⟨samples.take k, hr, by simp [hlen]⟩
          · exact ihmem r hr

/-- Witness for C2 at the concrete input: arity 2, five error-free
samples, fuel 3 — exactly `⌊5/2⌋ = 2` frames are emitted. -/
theorem c2_frames_floor_div_witness :
    (framesRun (ε := Unit) (0 : ℤ) 2 3
      (([1, 2, 3, 4, 5] : List ℤ).map .ok)).length = 2 :=
  (c2_frames_floor_div (0 : ℤ) 2 3 [1, 2, 3, 4, 5] (by decide)
    (by decide)).1

/-- C3 counterexample: with frame arity 2, if the first pull of the
frame yields a decode error and the second pull hits end-of-stream, the
later `None` overwrites the recorded error, and `Frames::next` returns
`None` — the error is silently discarded, not returned. -/
theorem c3_counterexample_error_then_eof :
    (framesNext (0 : ℤ) 2 [Except.error (0 : ℕ)]).1 = none := rfl

/-- The scan for the last error with an arbitrary starting record: the
record only matters when no error occurs. -/
lemma foldl_pullStep_acc (l : List (Except ε α)) (a : Option ε) :
    List.foldl pullStep a l = (List.foldl pullStep none l).elim a some := by
  induction l generalizing a with
  | nil => simp
  | cons p t ih =>
      cases p with
      | ok s =>
          simp only [List.foldl_cons, pullStep]
          exact ih a
      | error e =>
          simp only [List.foldl_cons, pullStep]
          rw [ih (some e)]
          cases List.foldl pullStep none t <;> simp

/-- The `result` flag after a frame's `k` pulls, when the pull list has
at least `k` entries: the last error among the consumed pulls if there
is one, otherwise the starting flag. -/
lemma framesFill_flag_of_le (equil : α) (k : ℕ)
    (pulls : List (Except ε α)) (r : FrameConstruction ε)
    (h : k ≤ pulls.length) :
    (framesFill equil k pulls r).2.1 =
      (lastPullError (pulls.take k)).elim r .err := by
  induction k generalizing pulls r with
  | zero => simp [framesFill, lastPullError]
  | succ k ih =>
      cases pulls with
      | nil => simp at h
      | cons p t =>
          have ht : k ≤ t.length := by simpa using h
          cases p with
          | ok s =>
              simpa [framesFill, lastPullError, pullStep] using ih t r ht
          | error e =>
              have hL : (framesFill equil (k + 1) (.error e :: t) r).2.1 =
                  (framesFill equil k t (.err e)).2.1 := rfl
              have hR : lastPullError ((Except.error e :: t).take (k + 1)) =
                  (List.foldl pullStep none (t.take k)).elim (some e)
                    some := by
                show List.foldl pullStep (some e) (t.take k) = _
                exact foldl_pullStep_acc (t.take k) (some e)
              rw [hL, ih t (.err e) ht, hR]
              simp only [lastPullError]
              cases List.foldl pullStep none (t.take k) <;> simp

/-- C3 amended: if any pull made while assembling one frame yields a
decode error and the underlying sequence does not end within the frame
(at least `k` pulls are available), `Frames::next` returns an error —
the *last* error among the frame's pulls, regardless of its position.
If the sequence ends within the same frame after an error, the error is
discarded and `next` returns `None` (C3's counterexample). -/
theorem c3_error_propagates_without_eof (equil : α) (k : ℕ)
    (pulls : List (Except ε α)) (e : ε) (hk : k ≤ pulls.length)
    (he : lastPullError (pulls.take k) = some e) :
    (framesNext equil k pulls).1 = some (.error e) := by
  rcases hf : framesFill equil k pulls .ok with ⟨frame, flag, rest⟩
  have hflag : flag = .err e := by
    have h2 := framesFill_flag_of_le equil k pulls .ok hk
    rw [hf, he] at h2
    exact h2
  simp [framesNext, hf, hflag]

/-- Witness for the amended C3 at the concrete input: arity 2, an error
on the first pull and a successful second pull — the error is
returned. -/
theorem c3_error_propagates_witness :
    (framesNext (0 : ℤ) 2 [Except.error (3 : ℕ), Except.ok 5]).1 =
      some (.error 3) :=
  c3_error_propagates_without_eof (0 : ℤ) 2
    [Except.error (3 : ℕ), Except.ok 5] 3 (by decide) (by decide)

/-- `Reader::new` attempts the candidates in a fixed order: whatever the
stream, the probed-candidate trace is one of the four prefixes of
[WAV, FLAC, Ogg Vorbis, CAF/ALAC]. -/
lemma readerNewT_trace_cases (s : Stream) :
    (readerNewT s).2 = [Format.wav] ∨
    (readerNewT s).2 = [Format.wav, Format.flac] ∨
    (readerNewT s).2 = [Format.wav, Format.flac, Format.oggVorbis] ∨
    (readerNewT s).2 =
      [Format.wav, Format.flac, Format.oggVorbis, Format.cafAlac] := by
  unfold readerNewT readerNewFlacStage readerNewOggStage readerNewCafStage
  repeat' split
  all_goals simp

/-- C4: whenever any candidate's construction fails with a condition
other than a format-signature mismatch, `Reader::new` aborts, returns
that specific error (wrapped exactly as the source's `From` conversions
wrap it), and probes no later candidate: the trace stops at the failing
stage. -/
theorem c4_abort_on_non_mismatch (s : Stream) :
    (∀ e, s.wavNew = .error e → houndIsFormatMismatch e = false →
      readerNewT s = (.error (.reader (.wav e)), [.wav])) ∧
    (∀ e, wavFellThrough s → s.flacNew = .error e →
      claxonIsFormatMismatch e = false →
      readerNewT s = (.error (.reader (.flac e)), [.wav, .flac])) ∧
    (∀ e, wavFellThrough s → flacFellThrough s → s.oggNew = .error e →
      vorbisIsFormatMismatch e = false →
      readerNewT s =
        (.error (.reader (.oggVorbis e)), [.wav, .flac, .oggVorbis])) ∧
    (∀ e, wavFellThrough s → flacFellThrough s → oggFellThrough s →
      s.cafNew = .error e → cafIsNotCaf e = false →
      readerNewT s =
        (.error (.reader e), [.wav, .flac, .oggVorbis, .cafAlac])) := by
  refine ⟨?_, ?_, ?_, ?_⟩
  · intro e he hm
    simp [readerNewT, he, hm]
  · rintro e ⟨⟨ew, hew, hmw⟩, h0⟩ he hm
    simp [readerNewT, readerNewFlacStage, hew, hmw, h0, he, hm]
  · rintro e ⟨⟨ew, hew, hmw⟩, h0⟩ ⟨⟨ef, hef, hmf⟩, h1⟩ he hm
    simp [readerNewT, readerNewFlacStage, readerNewOggStage, hew, hmw, h0,
      hef, hmf, h1, he, hm]
  · rintro e ⟨⟨ew, hew, hmw⟩, h0⟩ ⟨⟨ef, hef, hmf⟩, h1⟩ ⟨⟨eo, heo, hmo⟩, h2⟩
      he hm
    simp [readerNewT, readerNewFlacStage, readerNewOggStage,
      readerNewCafStage, hew, hmw, h0, hef, hmf, h1, heo, hmo, h2, he, hm]

/-- C5: `Reader::new` returns `ReadError::UnsupportedFormat` if and only
if every candidate adapter's construction was attempted and reported a
format-signature mismatch (for the CAF/ALAC candidate, "no match" also
covers a CAF container without ALAC inside, the source's `Ok(None)`
case) — and `UnsupportedFormat` is a dedicated variant distinct from the
I/O variant and from every per-format error variant. -/
theorem c5_unsupported_format_iff (s : Stream) :
    (readerNew s = .error .unsupportedFormat ↔ allCandidatesMismatch s) ∧
    (∀ e : ℕ, ReadError.unsupportedFormat ≠ ReadError.io e) ∧
    (∀ f : FormatError, ReadError.unsupportedFormat ≠ ReadError.reader f) := by
  refine ⟨⟨?_, ?_⟩, fun e => by simp, fun f => by simp⟩
  · intro h
    simp only [readerNew] at h
    unfold readerNewT at h
    cases hw : s.wavNew with
    | ok spec =>
        simp only [hw] at h
        cases h0 : s.seek 0 with
        | some io => simp [h0] at h
        | none => simp [h0] at h
    | error ew =>
        simp only [hw] at h
        cases hmw : houndIsFormatMismatch ew with
        | false => simp [hmw] at h
        | true =>
            simp only [hmw, if_true] at h
            cases h0 : s.seek 0 with
            | some io => simp [h0] at h
            | none =>
                simp only [h0] at h
                unfold readerNewFlacStage at h
                cases hf : s.flacNew with
                | ok info =>
                    simp only [hf] at h
                    cases h1 : s.seek 1 with
                    | some io => simp [h1] at h
                    | none => simp [h1] at h
                | error ef =>
                    simp only [hf] at h
                    cases hmf : claxonIsFormatMismatch ef with
                    | false => simp [hmf] at h
                    | true =>
                        simp only [hmf, if_true] at h
                        cases h1 : s.seek 1 with
                        | some io => simp [h1] at h
                        | none =>
                            simp only [h1] at h
                            unfold readerNewOggStage at h
                            cases ho : s.oggNew with
                            | ok hdr =>
                                simp only [ho] at h
                                cases h2 : s.seek 2 with
                                | some io => simp [h2] at h
                                | none => simp [h2] at h
                            | error eo =>
                                simp only [ho] at h
                                cases hmo : vorbisIsFormatMismatch eo with
                                | false => simp [hmo] at h
                                | true =>
                                    simp only [hmo, if_true] at h
                                    cases h2 : s.seek 2 with
                                    | some io => simp [h2] at h
                                    | none =>
                                        simp only [h2] at h
                                        unfold readerNewCafStage at h
                                        cases hc : s.cafNew with
                                        | ok od =>
                                            cases od with
                                            | none =>
                                                simp only [hc] at h
                                                cases h3 : s.seek 3 with
                                                | some io => simp [h3] at h
                                                | none =>
                                                    exact ⟨⟨ew, hw, hmw⟩,
                                                      ⟨ef, hf, hmf⟩,
                                                      ⟨eo, ho, hmo⟩,
                                                      .inr hc,
                                                      fun i hi => by
                                                        interval_cases i <;>
                                                          assumption⟩
                                            | some desc =>
                                                simp only [hc] at h
                                                cases h3 : s.seek 3 with
                                                | some io => simp [h3] at h
                                                | none => simp [h3] at h
                                        | error ec =>
                                            simp only [hc] at h
                                            cases hmc : cafIsNotCaf ec with
                                            | false => simp [hmc] at h
                                            | true =>
                                                simp only [hmc, if_true] at h
                                                cases h3 : s.seek 3 with
                                                | some io => simp [h3] at h
                                                | none =>
                                                    exact ⟨⟨ew, hw, hmw⟩,
                                                      ⟨ef, hf, hmf⟩,
                                                      ⟨eo, ho, hmo⟩,
                                                      .inl ⟨ec, hc, hmc⟩,
                                                      fun i hi => by
                                                        interval_cases i <;>
                                                          assumption⟩
  · rintro ⟨⟨ew, hew, hmw⟩, ⟨ef, hef, hmf⟩, ⟨eo, heo, hmo⟩, hcaf, hseek⟩
    have h0 := hseek 0 (by omega)
    have h1 := hseek 1 (by omega)
    have h2 := hseek 2 (by omega)
    have h3 := hseek 3 (by omega)
    rcases hcaf with ⟨ec, hec, hmc⟩ | hec
    · simp [readerNew, readerNewT, readerNewFlacStage, readerNewOggStage,
        readerNewCafStage, hew, hmw, hef, hmf, heo, hmo, hec, hmc,
        h0, h1, h2, h3]
    · simp [readerNew, readerNewT, readerNewFlacStage, readerNewOggStage,
        readerNewCafStage, hew, hmw, hef, hmf, heo, hmo, hec,
        h0, h1, h2, h3]

/-- C6: `Reader::new` probes the candidates in the fixed order WAV,
FLAC, Ogg Vorbis, CAF/ALAC — the probe trace is always a prefix of that
list, so nothing is attempted after a match — and a stream on which
format `F`'s construction succeeds (all earlier candidates having
reported a mismatch) yields `Ok` of a reader whose `format()` is `F`,
with the trace stopping at `F`. -/
theorem c6_fixed_order_first_match (s : Stream) :
    (readerNewT s).2 <+:
      [Format.wav, Format.flac, Format.oggVorbis, Format.cafAlac] ∧
    (∀ spec, s.wavNew = .ok spec → s.seek 0 = none →
      readerNewT s = (.ok (.wav spec), [.wav]) ∧
      (Reader.wav spec).format = .wav) ∧
    (∀ info, wavFellThrough s → s.flacNew = .ok info → s.seek 1 = none →
      readerNewT s = (.ok (.flac info), [.wav, .flac]) ∧
      (Reader.flac info).format = .flac) ∧
    (∀ hdr, wavFellThrough s → flacFellThrough s → s.oggNew = .ok hdr →
      s.seek 2 = none →
      readerNewT s = (.ok (.oggVorbis hdr), [.wav, .flac, .oggVorbis]) ∧
      (Reader.oggVorbis hdr).format = .oggVorbis) ∧
    (∀ desc, wavFellThrough s → flacFellThrough s → oggFellThrough s →
      s.cafNew = .ok (some desc) → s.seek 3 = none →
      readerNewT s =
        (.ok (.cafAlac desc), [.wav, .flac, .oggVorbis, .cafAlac]) ∧
      (Reader.cafAlac desc).format = .cafAlac) := by
  refine ⟨?_, ?_, ?_, ?_, ?_⟩
  · rcases readerNewT_trace_cases s with h | h | h | h <;> rw [h] <;>
      exact ⟨_, rfl⟩
  · intro spec hw h0
    exact ⟨by simp [readerNewT, hw, h0], rfl⟩
  · rintro info ⟨⟨ew, hew, hmw⟩, h0⟩ hf h1
    exact ⟨by simp [readerNewT, readerNewFlacStage, hew, hmw, h0, hf, h1],
      rfl⟩
  · rintro hdr ⟨⟨ew, hew, hmw⟩, h0⟩ ⟨⟨ef, hef, hmf⟩, h1⟩ ho h2
    exact ⟨by simp [readerNewT, readerNewFlacStage, readerNewOggStage,
      hew, hmw, h0, hef, hmf, h1, ho, h2], rfl⟩
  · rintro desc ⟨⟨ew, hew, hmw⟩, h0⟩ ⟨⟨ef, hef, hmf⟩, h1⟩ ⟨⟨eo, heo, hmo⟩, h2⟩
      hc h3
    exact ⟨by simp [readerNewT, readerNewFlacStage, readerNewOggStage,
      readerNewCafStage, hew, hmw, h0, hef, hmf, h1, heo, hmo, h2, hc, h3],
      rfl⟩

/-- C10: for every `Format` value `f`,
`Format::from_extension(f.extension()) == Some(f)`, and `from_extension`
returns `None` for every string outside the supported extension set
`{"flac", "ogg", "oga", "wav", "wave", "caf"}`. -/
theorem c10_extension_round_trip :
    (∀ f : Format, Format.from_extension f.extension = some f) ∧
    (∀ s : String, s ∉ Format.supportedExtensions →
      Format.from_extension s = none) := by
  constructor
  · intro f
    cases f <;> rfl
  · intro s hs
    simp only [Format.supportedExtensions, List.mem_cons, List.not_mem_nil,
      or_false, not_or] at hs
    obtain ⟨h1, h2, h3, h4, h5, h6⟩ := hs
    simp [Format.from_extension, h1, h2, h3, h4, h5, h6]

/-- C9: for a WAV stream with integer sample format and a declared bit
depth outside {8, 16, 24, 32}, `Reader::samples` signals no error (the
selection is a total function into the decode paths) and silently
selects the 32-bit integer decode path. -/
theorem c9_wav_unusual_bit_depth (bits : ℕ) (h8 : bits ≠ 8)
    (h16 : bits ≠ 16) (h24 : bits ≠ 24) (h32 : bits ≠ 32) :
    wavSamplesPath .int bits = .i32 := by
  simp [wavSamplesPath, h8, h16, h24, h32]

/-- Witness for C9 at the concrete bit depth 12. -/
theorem c9_wav_unusual_bit_depth_witness : wavSamplesPath .int 12 = .i32 :=
  c9_wav_unusual_bit_depth 12 (by decide) (by decide) (by decide) (by decide)

/-- C1: `Reader::description` copies the declared channel count and
sample rate for the FLAC, Ogg Vorbis and WAV adapters, but the CAF/ALAC
arm computes `(1.0 / desc.sample_rate) as u32` (`src/read.rs` line 317):
for a two-channel CAF/ALAC stream declaring 44100 Hz it returns
`sample_rate = 0`, not 44100 — contradicting both the claim and the
`Description::sample_rate` documentation ("E.g. A `sample_rate` of
44_100 indicates that the audio is sampled 44_100 times per second"). -/
theorem c1_description_caf_sample_rate_zero (info : FlacStreamInfo)
    (hdr : OggIdentHdr) (spec : WavSpec) :
    (Reader.flac info).description =
      ⟨.flac, info.channels, info.sample_rate⟩ ∧
    (Reader.oggVorbis hdr).description =
      ⟨.oggVorbis, hdr.audio_channels, hdr.audio_sample_rate⟩ ∧
    (Reader.wav spec).description =
      ⟨.wav, spec.channels, spec.sample_rate⟩ ∧
    (Reader.cafAlac ⟨(44100 : ℚ), .appleLossless, 2, 4096⟩).description =
      ⟨.cafAlac, 2, 0⟩ := by
  refine ⟨rfl, rfl, rfl, ?_⟩
  have hfloor : (⌊(1 : ℚ) / 44100⌋ : ℤ) = 0 := by
    rw [Int.floor_eq_zero_iff, Set.mem_Ico]
    constructor <;> norm_num
  have h : ratAsU32 (1 / (44100 : ℚ)) = 0 := by
    unfold ratAsU32
    rw [hfloor]
    rfl
  show Description.mk .cafAlac 2 (ratAsU32 (1 / (44100 : ℚ))) = ⟨.cafAlac, 2, 0⟩
  rw [h]

/-- C7 counterexample: the conversion applied by the `Samples` iterator
is not always a lossless widening.  The FLAC adapter's native
representation is 32-bit integer, and the `Sample` bound accepts `i16`
as output type (the crate's own test `tests/read.rs` reads FLAC with
`samples::<i16>()`); the applied conversion `(s >> 16) as i16` sends the
two distinct source samples 0 and 1 to the same output, so it is a
narrowing, lossy conversion performed implicitly. -/
theorem c7_counterexample_narrowing :
    samplesNextFlac i16_from_i32 [Except.ok 0] = some (Except.ok 0) ∧
    samplesNextFlac i16_from_i32 [Except.ok 1] = some (Except.ok 0) := by
  constructor <;> rfl

/-- C7 amended: the `sample`-crate conversions used by `Samples::next`
are lossless widenings when the requested type is at least as wide as
the source (the 8→16, 16→32 and 24→32 bit rescalings are injective),
but the `Sample` bound also accepts types narrower than a source, and
for those the conversion narrows: the 32→16 bit rescaling is not
injective.  The last conjunct shows this does not depend on the
modelling of the collaborator's conversion: *every* function from the
32-bit integer range into the 16-bit range identifies two distinct
source samples. -/
theorem c7_widening_lossless_narrowing_lossy :
    Function.Injective i16_from_i8 ∧
    Function.Injective i32_from_i16 ∧
    Function.Injective i32_from_i24 ∧
    ¬ Function.Injective i16_from_i32 ∧
    (∀ conv : ℤ → ℤ,
      (∀ s : ℤ, -(2 ^ 31) ≤ s → s < 2 ^ 31 →
        -(2 ^ 15) ≤ conv s ∧ conv s < 2 ^ 15) →
      ∃ a b : ℤ, -(2 ^ 31) ≤ a ∧ a < 2 ^ 31 ∧ -(2 ^ 31) ≤ b ∧ b < 2 ^ 31 ∧
        a ≠ b ∧ conv a = conv b) := by
  refine ⟨?_, ?_, ?_, ?_, ?_⟩
  · intro a b h
    have h' : a * 2 ^ 8 = b * 2 ^ 8 := h
    exact mul_right_cancel₀ (by norm_num) h'
  · intro a b h
    have h' : a * 2 ^ 16 = b * 2 ^ 16 := h
    exact mul_right_cancel₀ (by norm_num) h'
  · intro a b h
    have h' : a * 2 ^ 8 = b * 2 ^ 8 := h
    exact mul_right_cancel₀ (by norm_num) h'
  · intro h
    have h01 : (0 : ℤ) = 1 := h (show i16_from_i32 0 = i16_from_i32 1 by decide)
    exact absurd h01 (by decide)
  · intro conv hconv
    have hmaps : ∀ x ∈ Finset.Ico (-(2 ^ 31) : ℤ) (2 ^ 31),
        conv x ∈ Finset.Ico (-(2 ^ 15) : ℤ) (2 ^ 15) := by
      intro x hx
      rw [Finset.mem_Ico] at hx ⊢
      exact ⟨(hconv x hx.1 hx.2).1, (hconv x hx.1 hx.2).2⟩
    have hcard : (Finset.Ico (-(2 ^ 15) : ℤ) (2 ^ 15)).card <
        (Finset.Ico (-(2 ^ 31) : ℤ) (2 ^ 31)).card := by
      rw [Int.card_Ico, Int.card_Ico]
      norm_num
    obtain ⟨a, ha, b, hb, hab, heq⟩ :=
      Finset.exists_ne_map_eq_of_card_lt_of_maps_to hcard hmaps
    rw [Finset.mem_Ico] at ha hb
    exact ⟨a, b, ha.1, ha.2, hb.1, hb.2, hab, heq⟩

/-- C8 counterexample: a CAF stream that declares Apple Lossless but
contains no MagicCookie chunk reaches the `.unwrap()` on the cookie
lookup (`src/caf_alac.rs` line 37): `AlacReader::new` panics instead of
returning. -/
theorem c8_counterexample_no_cookie_panics :
    alacReaderNew (.ok ⟨⟨44100, .appleLossless, 2, 4096⟩, []⟩)
      (fun _ => .ok ()) = .panic := rfl

/-- C8 amended: for a successfully parsed CAF container,
`AlacReader::new` panics exactly when the stream declares Apple Lossless
and the retained chunks contain no MagicCookie; when a MagicCookie chunk
is present (or the declared format is not ALAC) the unwrap is never
reached. -/
theorem c8_panic_iff_alac_without_cookie (r : CafPacketReaderState)
    (fromCookie : List ℕ → Except Unit Unit) :
    alacReaderNew (.ok r) fromCookie = .panic ↔
      r.audio_desc.format_id = .appleLossless ∧
      findMagicCookie r.chunks = none := by
  unfold alacReaderNew
  by_cases hf : r.audio_desc.format_id = .appleLossless
  · simp only [hf, ne_eq, not_true_eq_false, if_false]
    cases hc : findMagicCookie r.chunks with
    | none => simp [hc]
    | some cookie =>
        cases hfc : fromCookie cookie <;> simp [hc, hfc]
  · simp [hf]

end Audrey
